import Mathlib

/-!
Verification of the real-time simulation core shared by the SM64 castle
demos: orbit-follow camera, gravity/jump character controller, proximity
collectible tracker and star objective machine.

Conventions of the embedding:
* positions and velocities are exact rationals (or reals where trigonometry
  is involved); the sources' float arithmetic is modelled exactly;
* the sources compare Euclidean lengths against a nonnegative radius
  (`distance(a, b) < r`, `(a - b).length() < r`); for rational models this
  is encoded by the equivalent comparison of the squared distance `dist2`
  against `r ^ 2`, avoiding square roots;
* Python entities are identified with their payload (a position); `remove`
  matches the iterated object itself (object identity), so removing the
  current element of a snapshot iteration is structural recursion.
-/

namespace SM64

/-- Three-component vector, as ursina's `Vec3`. -/
structure Vec3 (α : Type) where
  x : α
  y : α
  z : α
deriving DecidableEq

instance [Add α] : Add (Vec3 α) := ⟨fun a b => ⟨a.x + b.x, a.y + b.y, a.z + b.z⟩⟩

instance [Sub α] : Sub (Vec3 α) := ⟨fun a b => ⟨a.x - b.x, a.y - b.y, a.z - b.z⟩⟩

instance [Mul α] : HMul (Vec3 α) α (Vec3 α) := ⟨fun v c => ⟨v.x * c, v.y * c, v.z * c⟩⟩

/-- Squared Euclidean distance.  The sources compare `distance(a, b) < r`
(resp. `(a - b).length() < r`) for a nonnegative radius `r`; this is
equivalent to `dist2 a b < r ^ 2`. -/
def dist2 (a b : Vec3 ℚ) : ℚ :=
  (a.x - b.x) ^ 2 + (a.y - b.y) ^ 2 + (a.z - b.z) ^ 2

/-! ## Character controller (`Mario`)

`Mario.__init__` sets `self.grounded = True`, `self.vel_y = 0`; the per-tick
physics of `Mario.update` is, in all five files:

    self.position += wish * time.dt * 5        # wish has zero y component
    if self.grounded and held_keys['space']:
        self.vel_y = 7
        self.grounded = False
    self.y += self.vel_y * time.dt
    self.vel_y -= 18 * time.dt
    if self.y <= 0:          # `< 0` in realtimeclockhdrv0.py / v0.x.py
        self.y = 0
        self.vel_y = 0
        self.grounded = True

`input_move_dir` returns a vector with zero y component in both of its
branches, so the horizontal step is passed here as its x/z components. -/

structure MarioState where
  pos : Vec3 ℚ
  vel_y : ℚ
  grounded : Bool
deriving DecidableEq

/-- The jump branch: `if self.grounded and held_keys['space']: self.vel_y = 7;
self.grounded = False`.  Returns the vertical velocity and grounded flag
after the branch. -/
def jumpStep (jump : Bool) (s : MarioState) : ℚ × Bool :=
  if s.grounded && jump then (7, false) else (s.vel_y, s.grounded)

/-- One `Mario.update` physics tick of castlehdrv0.py /
hackersm64castlehdrv0.py / hackersm64hdrv0.py (ground clamp on `y <= 0`). -/
def marioUpdate (wx wz : ℚ) (jump : Bool) (dt : ℚ) (s : MarioState) : MarioState :=
  let px := s.pos.x + wx * dt * 5
  let pz := s.pos.z + wz * dt * 5
  let v1 := (jumpStep jump s).1
  let g1 := (jumpStep jump s).2
  let y2 := s.pos.y + v1 * dt
  let v2 := v1 - 18 * dt
  if y2 ≤ 0 then ⟨⟨px, 0, pz⟩, 0, true⟩ else ⟨⟨px, y2, pz⟩, v2, g1⟩

/-- One `Mario.update` physics tick of realtimeclockhdrv0.py / v0.x.py,
whose ground clamp reads `if self.y < 0:` (strict). -/
def marioUpdateRTC (wx wz : ℚ) (jump : Bool) (dt : ℚ) (s : MarioState) : MarioState :=
  let px := s.pos.x + wx * dt * 5
  let pz := s.pos.z + wz * dt * 5
  let v1 := (jumpStep jump s).1
  let g1 := (jumpStep jump s).2
  let y2 := s.pos.y + v1 * dt
  let v2 := v1 - 18 * dt
  if y2 < 0 then ⟨⟨px, 0, pz⟩, 0, true⟩ else ⟨⟨px, y2, pz⟩, v2, g1⟩

/-- The player as constructed in castlehdrv0.py:
`player = Mario(position=(0, 1, 10))` with `grounded = True`, `vel_y = 0`. -/
def marioInit : MarioState := ⟨⟨0, 1, 10⟩, 0, true⟩

/-- The spec's character-state invariant:
grounded implies zero vertical velocity and y on the ground plane. -/
def marioInv (s : MarioState) : Prop :=
  s.grounded = true → s.vel_y = 0 ∧ s.pos.y = 0

instance (s : MarioState) : Decidable (marioInv s) := by
  unfold marioInv; infer_instance

/-! ## Collectible tracker

castlehdrv0.py iterates the live list (`for c in coins: ... coins.remove(c)`):
Python's list iterator advances a shared index, so a removal shifts the
successor into the removed slot and the iterator steps past it — after each
collected coin the next coin is not examined this tick.  The hackersm64
files iterate over a snapshot (`for c in list(coins)`) and remove from the
live list, examining every coin.  Each collection increments `self.coins`
and calls `spawn_star()` when the count reaches exactly 8. -/

/-- Snapshot iteration of hackersm64castlehdrv0.py / hackersm64hdrv0.py:

    for c in list(coins):
        if (self.position - c.position).length() < 1.0:
            destroy(c); coins.remove(c); self.coins += 1
            if self.coins == 8: spawn_star()

Arguments: player position, remaining snapshot, current count, number of
`spawn_star` calls so far.  Returns the surviving coins (in order), the
new count and the new number of `spawn_star` calls. -/
def collectCopy (p : Vec3 ℚ) : List (Vec3 ℚ) → ℕ → ℕ → List (Vec3 ℚ) × ℕ × ℕ
  | [], n, sp => ([], n, sp)
  | c :: cs, n, sp =>
    if dist2 p c < 1 then
      collectCopy p cs (n + 1) (if n + 1 = 8 then sp + 1 else sp)
    else
      let r := collectCopy p cs n sp
      (c :: r.1, r.2)

/-- Live-list iteration of castlehdrv0.py:

    for c in coins:
        if distance(self.position, c.position) < 1:
            destroy(c); coins.remove(c); self.coins += 1
            if self.coins == 8: spawn_star()

After `coins.remove(c)` the iterator's shared index has already moved past
the element that slid into `c`'s slot, so the coin immediately after a
collected one is skipped (it stays in the list but is not examined this
tick). -/
def collectLive (p : Vec3 ℚ) : List (Vec3 ℚ) → ℕ → ℕ → List (Vec3 ℚ) × ℕ × ℕ
  | [], n, sp => ([], n, sp)
  | [c], n, sp =>
    if dist2 p c < 1 then ([], n + 1, if n + 1 = 8 then sp + 1 else sp)
    else ([c], n, sp)
  | c :: d :: ds, n, sp =>
    if dist2 p c < 1 then
      let r := collectLive p ds (n + 1) (if n + 1 = 8 then sp + 1 else sp)
      (d :: r.1, r.2)
    else
      let r := collectLive p (d :: ds) n sp
      (c :: r.1, r.2)

/-- World state threaded through coin ticks: the live coin list, the
player's `self.coins` counter, and how many times `spawn_star` ran. -/
structure CoinWorld where
  coins : List (Vec3 ℚ)
  count : ℕ
  spawnCalls : ℕ
deriving DecidableEq

/-- One coin-collection pass (hackersm64 snapshot iteration). -/
def coinTick (p : Vec3 ℚ) (w : CoinWorld) : CoinWorld :=
  let r := collectCopy p w.coins w.count w.spawnCalls
  ⟨r.1, r.2.1, r.2.2⟩

/-- One coin-collection pass (castlehdrv0 live-list iteration). -/
def coinTickLive (p : Vec3 ℚ) (w : CoinWorld) : CoinWorld :=
  let r := collectLive p w.coins w.count w.spawnCalls
  ⟨r.1, r.2.1, r.2.2⟩

/-- A run of ticks (snapshot iteration), one player position per tick. -/
def runTicks : List (Vec3 ℚ) → CoinWorld → CoinWorld
  | [], w => w
  | p :: ps, w => runTicks ps (coinTick p w)

/-- A run of ticks (live-list iteration), one player position per tick. -/
def runTicksLive : List (Vec3 ℚ) → CoinWorld → CoinWorld
  | [], w => w
  | p :: ps, w => runTicksLive ps (coinTickLive p w)

/-- The `coin_positions` list of castlehdrv0.py and
hackersm64castlehdrv0.py (8 coins in the courtyard). -/
def coinPositions : List (Vec3 ℚ) :=
  [⟨-8, 1, 2⟩, ⟨8, 1, 2⟩, ⟨-6, 1, -2⟩, ⟨6, 1, -2⟩,
   ⟨-4, 1, 5⟩, ⟨4, 1, 5⟩, ⟨-10, 1, 8⟩, ⟨10, 1, 8⟩]

/-- Level start: 8 coins, `self.coins = 0`, no star spawned. -/
def initWorld : CoinWorld := ⟨coinPositions, 0, 0⟩

/-! ## Star objective

`star = None` at module level; `spawn_star()` assigns a fresh entity at a
fixed position; the per-frame `update()` of the hackersm64 files runs

    if star and (player.position - star.position).length() < 1.2:
        destroy(star)
        txt = Text(...)          # success announcement

(radius 1.5 in hackersm64hdrv0.py; the radius is a parameter below).
`destroy` empties the entity's scene node, after which the entity is falsy
in boolean context, so later `if star` guards do not re-enter the branch:
modelled by setting the star reference to `none` on destruction. -/

structure StarWorld where
  star : Option (Vec3 ℚ)
  spawned : Bool
  announce : ℕ
deriving DecidableEq

/-- The spec's objective states. -/
inductive ObjectiveState where
  | Idle
  | StarSpawned
  | StarCollected
deriving DecidableEq

/-- Objective state as observable from the world: a live star means
spawned-but-uncollected; a star that existed and is gone means collected. -/
def objState (w : StarWorld) : ObjectiveState :=
  match w.star with
  | some _ => .StarSpawned
  | none => if w.spawned then .StarCollected else .Idle

/-- `spawn_star()` of hackersm64castlehdrv0.py: star at `(0, 4, -6)`. -/
def spawnStar (w : StarWorld) : StarWorld :=
  ⟨some ⟨0, 4, -6⟩, true, w.announce⟩

/-- The star proximity check of the per-frame `update()` with pickup
radius `r` (1.2 in hackersm64castlehdrv0.py, 1.5 in hackersm64hdrv0.py). -/
def starCheck (r : ℚ) (p : Vec3 ℚ) (w : StarWorld) : StarWorld :=
  match w.star with
  | some sp =>
    if dist2 p sp < r ^ 2 then ⟨none, w.spawned, w.announce + 1⟩ else w
  | none => w

/-! ## Orbit camera (`LakituCamera`)

Real-valued model (the camera offset uses trigonometry).  `update` is, in
castlehdrv0.py (and identically in the hackersm64 files):

    if held_keys['right mouse']:
        self.yaw -= mouse.velocity[0] * 120
        self.pitch -= mouse.velocity[1] * 120
        self.pitch = clamp(self.pitch, self.min_pitch, self.max_pitch)
    target_pos = self.target.world_position + Vec3(0, 1.2, 0)
    cam_offset = Vec3(sin(radians(yaw))*d, sin(radians(pitch))*d*0.6, cos(radians(yaw))*d)
    desired = target_pos + cam_offset
    camera.world_position = lerp(camera.world_position, desired, min(time.dt * self.smooth, 1))
    camera.look_at(target_pos)

realtimeclockhdrv0.py and v0.x.py differ in one line:
`target_pos = self.target.world_position` (no vertical offset). -/

/-- ursina's `clamp(value, floor, ceiling)`. -/
noncomputable def clamp (x lo hi : ℝ) : ℝ := max lo (min x hi)

/-- `math.radians`: degrees to radians. -/
noncomputable def radians (d : ℝ) : ℝ := d * (Real.pi / 180)

/-- Camera constants fixed in `LakituCamera.__init__`. -/
structure CamCfg where
  distance : ℝ
  smooth : ℝ
  minPitch : ℝ
  maxPitch : ℝ

/-- castlehdrv0.py constructor defaults: distance 7, smooth 6,
pitch bounds [-45, 70]. -/
noncomputable def castleCfg : CamCfg := ⟨7, 6, -45, 70⟩

/-- realtimeclockhdrv0.py / v0.x.py constructor defaults: distance 6.5,
smooth 6, pitch bounds [-60, 60]. -/
noncomputable def rtcCfg : CamCfg := ⟨6.5, 6, -60, 60⟩

/-- Mutable camera state: yaw, pitch (degrees) and the smoothed world
position of the camera. -/
structure CamState where
  yaw : ℝ
  pitch : ℝ
  camPos : Vec3 ℝ

/-- Per-tick camera inputs: orbit button, pointer delta, frame delta time
and the target's (player's) world position. -/
structure CamInput where
  orbit : Bool
  dx : ℝ
  dy : ℝ
  dt : ℝ
  target : Vec3 ℝ

/-- Yaw after the orbit branch: `self.yaw -= mouse.velocity[0] * 120`. -/
noncomputable def orbitYaw (i : CamInput) (s : CamState) : ℝ :=
  if i.orbit then s.yaw - i.dx * 120 else s.yaw

/-- Pitch after the orbit branch:
`self.pitch -= mouse.velocity[1] * 120` then clamped to the pitch range. -/
noncomputable def orbitPitch (cfg : CamCfg) (i : CamInput) (s : CamState) : ℝ :=
  if i.orbit then clamp (s.pitch - i.dy * 120) cfg.minPitch cfg.maxPitch else s.pitch

/-- `cam_offset = Vec3(sin(rad(yaw))*d, sin(rad(pitch))*d*0.6, cos(rad(yaw))*d)`. -/
noncomputable def camOffset (cfg : CamCfg) (yaw pitch : ℝ) : Vec3 ℝ :=
  ⟨Real.sin (radians yaw) * cfg.distance,
   Real.sin (radians pitch) * cfg.distance * 0.6,
   Real.cos (radians yaw) * cfg.distance⟩

/-- The exponential smoothing step,
`pos + (desired - pos) * min(dt * smooth, 1)` (equivalently ursina's
`lerp(pos, desired, min(dt * smooth, 1))`). -/
noncomputable def smoothStep (pos desired : Vec3 ℝ) (dt smooth : ℝ) : Vec3 ℝ :=
  pos + (desired - pos) * (min (dt * smooth) 1)

/-- What one camera tick produces: the new camera state, the look-at
target passed to `camera.look_at`, and the desired (pre-smoothing)
camera position. -/
structure CamResult where
  state : CamState
  lookAt : Vec3 ℝ
  desired : Vec3 ℝ

/-- One `LakituCamera.update` tick of castlehdrv0.py and the hackersm64
files (anchor `target_pos = target.world_position + Vec3(0, 1.2, 0)`). -/
noncomputable def camUpdate (cfg : CamCfg) (i : CamInput) (s : CamState) : CamResult :=
  let yaw1 := orbitYaw i s
  let pitch1 := orbitPitch cfg i s
  let targetPos := i.target + (⟨0, 1.2, 0⟩ : Vec3 ℝ)
  let desired := targetPos + camOffset cfg yaw1 pitch1
  ⟨⟨yaw1, pitch1, smoothStep s.camPos desired i.dt cfg.smooth⟩, targetPos, desired⟩

/-- One `LakituCamera.update` tick of realtimeclockhdrv0.py / v0.x.py,
whose anchor is `target_pos = self.target.world_position` (no offset). -/
noncomputable def camUpdateRTC (cfg : CamCfg) (i : CamInput) (s : CamState) : CamResult :=
  let yaw1 := orbitYaw i s
  let pitch1 := orbitPitch cfg i s
  let targetPos := i.target
  let desired := targetPos + camOffset cfg yaw1 pitch1
  ⟨⟨yaw1, pitch1, smoothStep s.camPos desired i.dt cfg.smooth⟩, targetPos, desired⟩

/-- Camera state at construction in castlehdrv0.py: `yaw=0.0, pitch=20`;
the camera's world position starts at the scene origin. -/
noncomputable def camInit : CamState := ⟨0, 20, ⟨0, 0, 0⟩⟩

/-- Iterated camera ticks (castle variant), one input record per tick. -/
noncomputable def camRun (cfg : CamCfg) : List CamInput → CamState → CamState
  | [], s => s
  | i :: is, s => camRun cfg is (camUpdate cfg i s).state

/-- Euclidean length of a real vector (`Vec3.length`). -/
noncomputable def vnorm (v : Vec3 ℝ) : ℝ := Real.sqrt (v.x ^ 2 + v.y ^ 2 + v.z ^ 2)

/-- Panda3D's `Vec3.normalized()`: the vector scaled to unit length, or
the zero vector when the length is zero. -/
noncomputable def normalized (v : Vec3 ℝ) : Vec3 ℝ :=
  if vnorm v = 0 then ⟨0, 0, 0⟩
  else ⟨v.x / vnorm v, v.y / vnorm v, v.z / vnorm v⟩

/-- `Mario.input_move_dir` of castlehdrv0.py / hackersm64*.py / v0.x.py:

    x = held_keys['d'] - held_keys['a']
    z = held_keys['w'] - held_keys['s']
    if not x and not z:
        return Vec3(0, 0, 0)
    rad = math.radians(cam_yaw)
    wx = x * math.cos(rad) + z * math.sin(rad)
    wz = -x * math.sin(rad) + z * math.cos(rad)
    return Vec3(wx, 0, wz).normalized()

`x`/`z` are differences of held-key booleans, hence the integers
-1, 0 or 1; `not x` is `x == 0`. -/
noncomputable def inputMoveDir (x z : ℤ) (camYaw : ℝ) : Vec3 ℝ :=
  if x = 0 ∧ z = 0 then ⟨0, 0, 0⟩
  else
    normalized ⟨(x : ℝ) * Real.cos (radians camYaw) + (z : ℝ) * Real.sin (radians camYaw),
                0,
                -(x : ℝ) * Real.sin (radians camYaw) + (z : ℝ) * Real.cos (radians camYaw)⟩

/-- `Mario.input_move_dir` of realtimeclockhdrv0.py (a different
algorithm from the other four files):

    dir = Vec3(held_keys['d'] - held_keys['a'], 0, held_keys['w'] - held_keys['s'])
    dir = dir.normalized()
    if dir.length() > 0:
        dir = dir.rotated(y=cam_yaw)
    return dir

ursina's `Vec3` (Panda3D's vector class) defines no method `rotated`, so
on the non-zero path the call raises `AttributeError` instead of
returning a vector (v0.x.py's own header, "Fixed: robust yaw-rotated
movement", records this path being replaced by the explicit rotation
formula).  The fallible call is modelled by `none`; the camera yaw is
consequently never consumed. -/
noncomputable def inputMoveDirRTC (x z : ℤ) (camYaw : ℝ) : Option (Vec3 ℝ) :=
  let dir := normalized ⟨(x : ℝ), 0, (z : ℝ)⟩
  if 0 < vnorm dir then none else some dir

/-! # Theorems -/

/-- Unfolding lemma: one castle-variant tick, with the let-bindings of
`marioUpdate` inlined. -/
theorem marioUpdate_eq (wx wz : ℚ) (jump : Bool) (dt : ℚ) (s : MarioState) :
    marioUpdate wx wz jump dt s =
      if s.pos.y + (jumpStep jump s).1 * dt ≤ 0 then
        ⟨⟨s.pos.x + wx * dt * 5, 0, s.pos.z + wz * dt * 5⟩, 0, true⟩
      else
        ⟨⟨s.pos.x + wx * dt * 5, s.pos.y + (jumpStep jump s).1 * dt,
          s.pos.z + wz * dt * 5⟩, (jumpStep jump s).1 - 18 * dt, (jumpStep jump s).2⟩ :=
  rfl

/-- Unfolding lemma: one realtimeclock/v0.x tick, with the let-bindings of
`marioUpdateRTC` inlined. -/
theorem marioUpdateRTC_eq (wx wz : ℚ) (jump : Bool) (dt : ℚ) (s : MarioState) :
    marioUpdateRTC wx wz jump dt s =
      if s.pos.y + (jumpStep jump s).1 * dt < 0 then
        ⟨⟨s.pos.x + wx * dt * 5, 0, s.pos.z + wz * dt * 5⟩, 0, true⟩
      else
        ⟨⟨s.pos.x + wx * dt * 5, s.pos.y + (jumpStep jump s).1 * dt,
          s.pos.z + wz * dt * 5⟩, (jumpStep jump s).1 - 18 * dt, (jumpStep jump s).2⟩ :=
  rfl

/-- C1 (counterexample): at the constructed initial player state of
castlehdrv0.py (`Mario(position=(0, 1, 10))`, `grounded = True`,
`vel_y = 0`) the grounded flag is true but the y-coordinate is 1, not 0,
so the claimed invariant fails at the initial state. -/
theorem C1_init_violates :
    marioInit.grounded = true ∧ ¬(marioInit.vel_y = 0 ∧ marioInit.pos.y = 0) :=
  ⟨rfl, fun h => absurd h.2 (by norm_num [marioInit])⟩

/-- C1 (amended): the invariant "grounded implies vertical velocity 0 and
y = 0" is preserved by every update tick of the castle variants (any
horizontal step, jump input and delta time), hence holds after every tick
from any state satisfying it; it does not hold at the spawn state, where
the player starts at y = 1 with the grounded flag set. -/
theorem C1_inv_preserved (wx wz : ℚ) (jump : Bool) (dt : ℚ) (s : MarioState)
    (hs : marioInv s) : marioInv (marioUpdate wx wz jump dt s) := by
  unfold marioInv
  rw [marioUpdate_eq]
  by_cases hy : s.pos.y + (jumpStep jump s).1 * dt ≤ 0
  · rw [if_pos hy]
    intro _
    exact ⟨rfl, rfl⟩
  · rw [if_neg hy]
    intro hg
    by_cases hj : (s.grounded && jump) = true
    · simp [jumpStep, hj] at hg
    · simp only [jumpStep, hj, if_false] at hy hg ⊢
      obtain ⟨h1, h2⟩ := hs hg
      rw [h1, h2] at hy
      simp at hy

/-- C1 (witness): the preservation theorem applied to a concrete grounded
state on the ground plane. -/
theorem C1_witness : marioInv (marioUpdate 0 0 false 1 ⟨⟨0, 0, 0⟩, 0, true⟩) :=
  C1_inv_preserved 0 0 false 1 ⟨⟨0, 0, 0⟩, 0, true⟩ (fun _ => ⟨rfl, rfl⟩)

/-- C4 (counterexample): in realtimeclockhdrv0.py / v0.x.py (clamp
condition `if self.y < 0:`), a tick whose integrated y is exactly 0 does
not clamp: from position y = 1, vertical velocity -1, airborne, with
dt = 1 the integrated y is 0, yet after the tick the state is still
airborne with nonzero vertical velocity, contradicting the claim that
y <= 0 always yields y = 0, velocity 0, Grounded. -/
theorem C4_rtc_no_clamp_at_zero :
    ((⟨⟨0, 1, 0⟩, -1, false⟩ : MarioState).pos.y
        + (jumpStep false ⟨⟨0, 1, 0⟩, -1, false⟩).1 * 1 = 0) ∧
    (marioUpdateRTC 0 0 false 1 ⟨⟨0, 1, 0⟩, -1, false⟩).grounded = false ∧
    (marioUpdateRTC 0 0 false 1 ⟨⟨0, 1, 0⟩, -1, false⟩).vel_y = -19 := by
  rw [marioUpdateRTC_eq]
  norm_num [jumpStep]

/-- C4 (amended): after vertical integration, castlehdrv0.py and the
hackersm64 variants clamp whenever y <= 0 (setting y = 0, vertical
velocity 0 and the state to Grounded); realtimeclockhdrv0.py and v0.x.py
clamp only when y < 0 strictly, and a tick ending at exactly y = 0 keeps
the gravity-decremented velocity and the pre-clamp grounded flag. -/
theorem C4_ground_clamp :
    (∀ (wx wz : ℚ) (jump : Bool) (dt : ℚ) (s : MarioState),
        s.pos.y + (jumpStep jump s).1 * dt ≤ 0 →
        (marioUpdate wx wz jump dt s).pos.y = 0 ∧
        (marioUpdate wx wz jump dt s).vel_y = 0 ∧
        (marioUpdate wx wz jump dt s).grounded = true) ∧
    (∀ (wx wz : ℚ) (jump : Bool) (dt : ℚ) (s : MarioState),
        s.pos.y + (jumpStep jump s).1 * dt < 0 →
        (marioUpdateRTC wx wz jump dt s).pos.y = 0 ∧
        (marioUpdateRTC wx wz jump dt s).vel_y = 0 ∧
        (marioUpdateRTC wx wz jump dt s).grounded = true) ∧
    (∀ (wx wz : ℚ) (jump : Bool) (dt : ℚ) (s : MarioState),
        s.pos.y + (jumpStep jump s).1 * dt = 0 →
        (marioUpdateRTC wx wz jump dt s).pos.y = 0 ∧
        (marioUpdateRTC wx wz jump dt s).vel_y = (jumpStep jump s).1 - 18 * dt ∧
        (marioUpdateRTC wx wz jump dt s).grounded = (jumpStep jump s).2) := by
  refine ⟨?_, ?_, ?_⟩ <;> intro wx wz jump dt s h
  · rw [marioUpdate_eq, if_pos h]
    exact ⟨rfl, rfl, rfl⟩
  · rw [marioUpdateRTC_eq, if_pos h]
    exact ⟨rfl, rfl, rfl⟩
  · rw [marioUpdateRTC_eq, if_neg (by rw [h]; exact lt_irrefl 0)]
    exact ⟨h, rfl, rfl⟩

/-- C4 (witness): the amended clamp theorem applied to a concrete falling
state that ends the tick below the ground plane. -/
theorem C4_witness :
    (marioUpdate 0 0 false 1 ⟨⟨2, 1, 3⟩, -5, false⟩).pos.y = 0 ∧
    (marioUpdate 0 0 false 1 ⟨⟨2, 1, 3⟩, -5, false⟩).vel_y = 0 ∧
    (marioUpdate 0 0 false 1 ⟨⟨2, 1, 3⟩, -5, false⟩).grounded = true :=
  C4_ground_clamp.1 0 0 false 1 ⟨⟨2, 1, 3⟩, -5, false⟩ (by norm_num [jumpStep])

/-- Snapshot iteration: the count only grows, each removed coin pairs with
exactly one increment (count plus surviving coins is conserved), and
`spawn_star` runs exactly when the count passes 8 during the pass. -/
theorem collectCopy_spec (p : Vec3 ℚ) (cs : List (Vec3 ℚ)) (n sp : ℕ) :
    n ≤ (collectCopy p cs n sp).2.1 ∧
    (collectCopy p cs n sp).2.1 + (collectCopy p cs n sp).1.length = n + cs.length ∧
    (collectCopy p cs n sp).2.2 =
      (if n < 8 ∧ 8 ≤ (collectCopy p cs n sp).2.1 then sp + 1 else sp) := by
  induction cs generalizing n sp with
  | nil =>
    refine ⟨le_refl n, rfl, ?_⟩
    simp only [collectCopy]
    split_ifs <;> omega
  | cons c cs ih =>
    by_cases hd : dist2 p c < 1
    · simp only [collectCopy, if_pos hd]
      by_cases h8 : n + 1 = 8
      · rw [if_pos h8]
        obtain ⟨m1, c1, s1⟩ := ih (n + 1) (sp + 1)
        refine ⟨by omega, by simp only [List.length_cons]; omega, ?_⟩
        rw [s1]
        split_ifs <;> omega
      · rw [if_neg h8]
        obtain ⟨m1, c1, s1⟩ := ih (n + 1) sp
        refine ⟨by omega, by simp only [List.length_cons]; omega, ?_⟩
        rw [s1]
        split_ifs <;> omega
    · simp only [collectCopy, if_neg hd]
      obtain ⟨m1, c1, s1⟩ := ih n sp
      exact ⟨m1, by simp only [List.length_cons]; omega, s1⟩

/-- Live-list iteration (castlehdrv0.py): same conservation and spawn
accounting — each removal still pairs with exactly one increment, even
though the coin after a removed one is skipped. -/
theorem collectLive_spec (p : Vec3 ℚ) (cs : List (Vec3 ℚ)) (n sp : ℕ) :
    n ≤ (collectLive p cs n sp).2.1 ∧
    (collectLive p cs n sp).2.1 + (collectLive p cs n sp).1.length = n + cs.length ∧
    (collectLive p cs n sp).2.2 =
      (if n < 8 ∧ 8 ≤ (collectLive p cs n sp).2.1 then sp + 1 else sp) := by
  induction cs, n, sp using collectLive.induct p with
  | case1 n sp =>
    refine ⟨le_refl n, rfl, ?_⟩
    simp only [collectLive]
    split_ifs <;> omega
  | case2 c n sp hd =>
    simp only [collectLive, if_pos hd]
    refine ⟨by omega, by simp, ?_⟩
    split_ifs <;> omega
  | case3 c n sp hd =>
    simp only [collectLive, if_neg hd]
    refine ⟨le_refl n, by simp, ?_⟩
    split_ifs <;> omega
  | case4 c d ds n sp hd ih =>
    simp only [collectLive, if_pos hd]
    by_cases h8 : n + 1 = 8
    · simp only [if_pos h8] at ih ⊢
      obtain ⟨m1, c1, s1⟩ := ih
      refine ⟨by omega, by simp only [List.length_cons]; omega, ?_⟩
      rw [s1]
      split_ifs <;> omega
    · simp only [if_neg h8] at ih ⊢
      obtain ⟨m1, c1, s1⟩ := ih
      refine ⟨by omega, by simp only [List.length_cons]; omega, ?_⟩
      rw [s1]
      split_ifs <;> omega
  | case5 c d ds n sp hd ih =>
    simp only [collectLive, if_neg hd]
    obtain ⟨m1, c1, s1⟩ := ih
    exact ⟨m1, by simp only [List.length_cons] at c1 ⊢; omega, s1⟩

/-- One snapshot-iteration tick keeps the conservation invariant and the
spawn-call ledger (`spawnCalls` is 1 exactly when the count has reached 8). -/
theorem coinTick_inv (p : Vec3 ℚ) (w : CoinWorld)
    (h8 : w.count + w.coins.length = 8)
    (hsp : w.spawnCalls = if w.count = 8 then 1 else 0) :
    (coinTick p w).count + (coinTick p w).coins.length = 8 ∧
    (coinTick p w).spawnCalls = if (coinTick p w).count = 8 then 1 else 0 := by
  obtain ⟨m1, c1, s1⟩ := collectCopy_spec p w.coins w.count w.spawnCalls
  have hcount : (coinTick p w).count = (collectCopy p w.coins w.count w.spawnCalls).2.1 := rfl
  have hcoins : (coinTick p w).coins = (collectCopy p w.coins w.count w.spawnCalls).1 := rfl
  have hspawn : (coinTick p w).spawnCalls = (collectCopy p w.coins w.count w.spawnCalls).2.2 := rfl
  rw [hcount, hcoins, hspawn, s1]
  refine ⟨by omega, ?_⟩
  split_ifs at hsp ⊢ <;> omega

/-- Along any run of snapshot-iteration ticks, the conservation invariant
and the spawn-call ledger are maintained. -/
theorem runTicks_inv (ps : List (Vec3 ℚ)) (w : CoinWorld)
    (h8 : w.count + w.coins.length = 8)
    (hsp : w.spawnCalls = if w.count = 8 then 1 else 0) :
    (runTicks ps w).count + (runTicks ps w).coins.length = 8 ∧
    (runTicks ps w).spawnCalls = if (runTicks ps w).count = 8 then 1 else 0 := by
  induction ps generalizing w with
  | nil => exact ⟨h8, hsp⟩
  | cons p ps ih =>
    obtain ⟨a, b⟩ := coinTick_inv p w h8 hsp
    exact ih (coinTick p w) a b

/-- Along any run of live-list-iteration ticks, count plus surviving
coins is conserved. -/
theorem runTicksLive_conserve (ps : List (Vec3 ℚ)) (w : CoinWorld)
    (h8 : w.count + w.coins.length = 8) :
    (runTicksLive ps w).count + (runTicksLive ps w).coins.length = 8 := by
  induction ps generalizing w with
  | nil => exact h8
  | cons p ps ih =>
    refine ih (coinTickLive p w) ?_
    obtain ⟨_, c1, _⟩ := collectLive_spec p w.coins w.count w.spawnCalls
    have hcount : (coinTickLive p w).count = (collectLive p w.coins w.count w.spawnCalls).2.1 := rfl
    have hcoins : (coinTickLive p w).coins = (collectLive p w.coins w.count w.spawnCalls).1 := rfl
    rw [hcount, hcoins]
    omega

/-- C3 (code divergence evaluated): with the player at (0,1,0) and two
active coins at (0,1,0.5) and (0,1,-0.5) — both strictly inside the
pickup distance 1 — castlehdrv0.py's live-list iteration collects only the
first coin this tick (the removal shifts the second coin under the
iterator's index and it is skipped), while the snapshot iteration of the
hackersm64 files collects both, as the spec describes. -/
theorem C3_live_iteration_skips :
    dist2 ⟨0, 1, 0⟩ ⟨0, 1, 1/2⟩ < 1 ∧
    dist2 ⟨0, 1, 0⟩ ⟨0, 1, -(1/2)⟩ < 1 ∧
    collectLive ⟨0, 1, 0⟩ [⟨0, 1, 1/2⟩, ⟨0, 1, -(1/2)⟩] 0 0 = ([⟨0, 1, -(1/2)⟩], 1, 0) ∧
    collectCopy ⟨0, 1, 0⟩ [⟨0, 1, 1/2⟩, ⟨0, 1, -(1/2)⟩] 0 0 = ([], 2, 0) := by
  norm_num [collectLive, collectCopy, dist2]

/-- C8: over any run of ticks from the level start (8 coins, count 0),
`spawn_star` has been called exactly once when and only when the count has
reached 8 — so the Idle-to-StarSpawned transition fires exactly once, on
the tick where the count reaches the level total — and any world
satisfying the conservation invariant whose count is already 8 has no
coins left, so a further tick is a no-op and cannot re-trigger it. -/
theorem C8_spawn_once :
    (∀ ps : List (Vec3 ℚ), (runTicks ps initWorld).spawnCalls =
        if (runTicks ps initWorld).count = 8 then 1 else 0) ∧
    (∀ (p : Vec3 ℚ) (w : CoinWorld), w.count + w.coins.length = 8 →
        w.count = 8 → coinTick p w = w) := by
  constructor
  · intro ps
    exact (runTicks_inv ps initWorld rfl rfl).2
  · intro p w h8 hc
    obtain ⟨cs, n, sp⟩ := w
    dsimp only at h8 hc
    subst hc
    have : cs = [] := List.eq_nil_of_length_eq_zero (by omega)
    subst this
    rfl

/-- C8 (witness): a completed world (no coins, count 8) is left unchanged
by a further tick. -/
theorem C8_witness : coinTick ⟨0, 0, 0⟩ ⟨[], 8, 1⟩ = ⟨[], 8, 1⟩ :=
  C8_spawn_once.2 ⟨0, 0, 0⟩ ⟨[], 8, 1⟩ rfl rfl

/-- C10: the collected-count plus the number of surviving active coins is
invariant under both collection loops (each removal is paired with exactly
one increment, and nothing else touches the counter), and along every run
from the level start (8 coins, count 0) — under the snapshot iteration of
the hackersm64 files as well as the live-list iteration of castlehdrv0.py
— the sum stays exactly 8 between ticks. -/
theorem C10_coin_conservation :
    (∀ (p : Vec3 ℚ) (cs : List (Vec3 ℚ)) (n sp : ℕ),
        (collectCopy p cs n sp).2.1 + (collectCopy p cs n sp).1.length = n + cs.length) ∧
    (∀ (p : Vec3 ℚ) (cs : List (Vec3 ℚ)) (n sp : ℕ),
        (collectLive p cs n sp).2.1 + (collectLive p cs n sp).1.length = n + cs.length) ∧
    (∀ ps : List (Vec3 ℚ),
        (runTicks ps initWorld).count + (runTicks ps initWorld).coins.length = 8) ∧
    (∀ ps : List (Vec3 ℚ),
        (runTicksLive ps initWorld).count + (runTicksLive ps initWorld).coins.length = 8) :=
  ⟨fun p cs n sp => (collectCopy_spec p cs n sp).2.1,
   fun p cs n sp => (collectLive_spec p cs n sp).2.1,
   fun ps => (runTicks_inv ps initWorld rfl rfl).1,
   fun ps => runTicksLive_conserve ps initWorld rfl⟩

/-- C2: on the tick where the player is within the pickup radius of the
live star, the check destroys the star, emits exactly one success
announcement and moves the objective to StarCollected; afterwards the
star reference is gone, so every subsequent proximity check (any player
position, any radius) leaves the world entirely unchanged — no further
transition, destruction or announcement. -/
theorem C2_star_collected_once (r : ℚ) (p sp : Vec3 ℚ) (w : StarWorld)
    (hstar : w.star = some sp) (hspawned : w.spawned = true)
    (hnear : dist2 p sp < r ^ 2) :
    objState (starCheck r p w) = ObjectiveState.StarCollected ∧
    (starCheck r p w).star = none ∧
    (starCheck r p w).announce = w.announce + 1 ∧
    ∀ (r2 : ℚ) (q : Vec3 ℚ), starCheck r2 q (starCheck r p w) = starCheck r p w := by
  obtain ⟨st, spw, an⟩ := w
  dsimp only at hstar hspawned
  subst hstar
  subst hspawned
  have hc : starCheck r p ⟨some sp, true, an⟩ = ⟨none, true, an + 1⟩ := by
    simp only [starCheck, if_pos hnear]
  rw [hc]
  exact ⟨rfl, rfl, rfl, fun r2 q => rfl⟩

/-- C2 (witness): collecting the star spawned at (0,4,-6) with the player
standing on it (radius 1.2) emits exactly one announcement. -/
theorem C2_witness :
    (starCheck (6/5) ⟨0, 4, -6⟩ ⟨some ⟨0, 4, -6⟩, true, 0⟩).announce = 0 + 1 :=
  (C2_star_collected_once (6/5) ⟨0, 4, -6⟩ ⟨0, 4, -6⟩ ⟨some ⟨0, 4, -6⟩, true, 0⟩ rfl rfl
    (by norm_num [dist2])).2.2.1

/-! ## Componentwise lemmas for the vector operations -/

@[simp] theorem vec_add_x {α : Type} [Add α] (a b : Vec3 α) : (a + b).x = a.x + b.x := rfl

@[simp] theorem vec_add_y {α : Type} [Add α] (a b : Vec3 α) : (a + b).y = a.y + b.y := rfl

@[simp] theorem vec_add_z {α : Type} [Add α] (a b : Vec3 α) : (a + b).z = a.z + b.z := rfl

@[simp] theorem vec_sub_x {α : Type} [Sub α] (a b : Vec3 α) : (a - b).x = a.x - b.x := rfl

@[simp] theorem vec_sub_y {α : Type} [Sub α] (a b : Vec3 α) : (a - b).y = a.y - b.y := rfl

@[simp] theorem vec_sub_z {α : Type} [Sub α] (a b : Vec3 α) : (a - b).z = a.z - b.z := rfl

@[simp] theorem vec_smul_x {α : Type} [Mul α] (v : Vec3 α) (c : α) : (v * c).x = v.x * c := rfl

@[simp] theorem vec_smul_y {α : Type} [Mul α] (v : Vec3 α) (c : α) : (v * c).y = v.y * c := rfl

@[simp] theorem vec_smul_z {α : Type} [Mul α] (v : Vec3 α) (c : α) : (v * c).z = v.z * c := rfl

/-- Vectors agreeing in all three components are equal. -/
theorem vec_ext {α : Type} (a b : Vec3 α)
    (hx : a.x = b.x) (hy : a.y = b.y) (hz : a.z = b.z) : a = b := by
  cases a
  cases b
  cases hx
  cases hy
  cases hz
  rfl

/-- C5 (counterexample): in realtimeclockhdrv0.py / v0.x.py the look-at
anchor of a camera tick is the bare target position, not the target plus
(0, 1.2, 0): with the target at the origin the anchor is the origin,
which differs from the claimed origin + (0, 1.2, 0). -/
theorem C5_rtc_anchor_no_offset :
    (camUpdateRTC rtcCfg ⟨false, 0, 0, 1, ⟨0, 0, 0⟩⟩ camInit).lookAt = ⟨0, 0, 0⟩ ∧
    (camUpdateRTC rtcCfg ⟨false, 0, 0, 1, ⟨0, 0, 0⟩⟩ camInit).lookAt ≠
      (⟨0, 0, 0⟩ : Vec3 ℝ) + ⟨0, 1.2, 0⟩ := by
  refine ⟨rfl, ?_⟩
  intro h
  have hy : (0 : ℝ) = 0 + 1.2 := congrArg Vec3.y h
  norm_num at hy

/-- C5 (amended): in castlehdrv0.py and the hackersm64 variants the anchor
of every camera tick — used both as the look-at target and as the base of
the desired position (anchor plus the trigonometric offset) — equals the
target position plus (0, 1.2, 0); in realtimeclockhdrv0.py / v0.x.py the
anchor plays the same two roles but equals the bare target position, with
no vertical offset. -/
theorem C5_anchor :
    (∀ (cfg : CamCfg) (i : CamInput) (s : CamState),
        (camUpdate cfg i s).lookAt = i.target + (⟨0, 1.2, 0⟩ : Vec3 ℝ) ∧
        (camUpdate cfg i s).desired =
          (camUpdate cfg i s).lookAt +
            camOffset cfg (camUpdate cfg i s).state.yaw (camUpdate cfg i s).state.pitch) ∧
    (∀ (cfg : CamCfg) (i : CamInput) (s : CamState),
        (camUpdateRTC cfg i s).lookAt = i.target ∧
        (camUpdateRTC cfg i s).desired =
          (camUpdateRTC cfg i s).lookAt +
            camOffset cfg (camUpdateRTC cfg i s).state.yaw (camUpdateRTC cfg i s).state.pitch) :=
  ⟨fun _ _ _ => ⟨rfl, rfl⟩, fun _ _ _ => ⟨rfl, rfl⟩⟩

/-- ursina's `clamp` lands inside the (nonempty) range. -/
theorem clamp_bounds (x lo hi : ℝ) (h : lo ≤ hi) :
    lo ≤ clamp x lo hi ∧ clamp x lo hi ≤ hi :=
  ⟨le_max_left lo _, max_le h (min_le_right x hi)⟩

/-- The orbit branch keeps the pitch inside a nonempty pitch range. -/
theorem orbitPitch_range (cfg : CamCfg) (i : CamInput) (s : CamState)
    (hcfg : cfg.minPitch ≤ cfg.maxPitch)
    (hs : cfg.minPitch ≤ s.pitch ∧ s.pitch ≤ cfg.maxPitch) :
    cfg.minPitch ≤ orbitPitch cfg i s ∧ orbitPitch cfg i s ≤ cfg.maxPitch := by
  unfold orbitPitch
  split_ifs
  · exact clamp_bounds _ _ _ hcfg
  · exact hs

/-- Pitch stays inside a nonempty pitch range along any run of camera
ticks. -/
theorem camRun_pitch_range (cfg : CamCfg) (hcfg : cfg.minPitch ≤ cfg.maxPitch)
    (inputs : List CamInput) (s : CamState)
    (hs : cfg.minPitch ≤ s.pitch ∧ s.pitch ≤ cfg.maxPitch) :
    cfg.minPitch ≤ (camRun cfg inputs s).pitch ∧
    (camRun cfg inputs s).pitch ≤ cfg.maxPitch := by
  induction inputs generalizing s with
  | nil => exact hs
  | cons i is ih => exact ih (camUpdate cfg i s).state (orbitPitch_range cfg i s hcfg hs)

/-- C7: starting from the castlehdrv0.py constructor state (pitch 20,
inside [-45, 70]), the pitch lies within [pitchMin, pitchMax] after every
sequence of camera ticks with arbitrary pointer deltas; a tick without
orbit input leaves the pitch unchanged, and an orbit-active tick clamps
it into the range. -/
theorem C7_pitch_clamped :
    (∀ inputs : List CamInput,
        castleCfg.minPitch ≤ (camRun castleCfg inputs camInit).pitch ∧
        (camRun castleCfg inputs camInit).pitch ≤ castleCfg.maxPitch) ∧
    (∀ (i : CamInput) (s : CamState), i.orbit = false →
        (camUpdate castleCfg i s).state.pitch = s.pitch) ∧
    (∀ (i : CamInput) (s : CamState), i.orbit = true →
        castleCfg.minPitch ≤ (camUpdate castleCfg i s).state.pitch ∧
        (camUpdate castleCfg i s).state.pitch ≤ castleCfg.maxPitch) := by
  refine ⟨fun inputs => camRun_pitch_range castleCfg (by norm_num [castleCfg]) inputs
    camInit (by norm_num [castleCfg, camInit]), ?_, ?_⟩
  · intro i s h
    show orbitPitch castleCfg i s = s.pitch
    unfold orbitPitch
    simp [h]
  · intro i s h
    show castleCfg.minPitch ≤ orbitPitch castleCfg i s ∧
      orbitPitch castleCfg i s ≤ castleCfg.maxPitch
    unfold orbitPitch
    simp only [h, if_true]
    exact clamp_bounds _ _ _ (by norm_num [castleCfg])

/-- C7 (witness): a tick without orbit input leaves the constructor pitch
unchanged (and hence inside the range). -/
theorem C7_witness :
    (camUpdate castleCfg ⟨false, 0, 0, 1, ⟨0, 0, 0⟩⟩ camInit).state.pitch = camInit.pitch :=
  C7_pitch_clamped.2.1 ⟨false, 0, 0, 1, ⟨0, 0, 0⟩⟩ camInit rfl

/-- Scaling a vector scales its Euclidean length by the absolute factor. -/
theorem vnorm_smul (v : Vec3 ℝ) (c : ℝ) : vnorm (v * c) = vnorm v * |c| := by
  unfold vnorm
  simp only [vec_smul_x, vec_smul_y, vec_smul_z]
  rw [show (v.x * c) ^ 2 + (v.y * c) ^ 2 + (v.z * c) ^ 2
      = (v.x ^ 2 + v.y ^ 2 + v.z ^ 2) * c ^ 2 from by ring]
  rw [Real.sqrt_mul (by positivity), Real.sqrt_sq_eq_abs]

/-- C9: one smoothing step with t = min(dt * smoothingRate, 1) moves the
camera so that its distance to the (fixed) desired position is exactly the
previous distance scaled by (1 - t), for every previous position, desired
position and positive dt. -/
theorem C9_smoothing_contraction (pos desired : Vec3 ℝ) (dt smooth : ℝ)
    (hdt : 0 < dt) :
    vnorm (smoothStep pos desired dt smooth - desired) =
      vnorm (pos - desired) * (1 - min (dt * smooth) 1) := by
  have ht1 : min (dt * smooth) 1 ≤ 1 := min_le_right _ _
  have hstep : smoothStep pos desired dt smooth - desired =
      (pos - desired) * (1 - min (dt * smooth) 1) := by
    unfold smoothStep
    apply vec_ext
    · simp only [vec_sub_x, vec_add_x, vec_smul_x]
      ring
    · simp only [vec_sub_y, vec_add_y, vec_smul_y]
      ring
    · simp only [vec_sub_z, vec_add_z, vec_smul_z]
      ring
  rw [hstep, vnorm_smul, abs_of_nonneg (by linarith)]

/-- C9 (witness): the contraction equation at a concrete step. -/
theorem C9_witness :
    vnorm (smoothStep ⟨3, 0, 0⟩ ⟨0, 0, 0⟩ 1 6 - ⟨0, 0, 0⟩) =
      vnorm ((⟨3, 0, 0⟩ : Vec3 ℝ) - ⟨0, 0, 0⟩) * (1 - min (1 * 6) 1) :=
  C9_smoothing_contraction ⟨3, 0, 0⟩ ⟨0, 0, 0⟩ 1 6 (by norm_num)

/-- Normalizing a vector of nonzero length yields a unit vector. -/
theorem vnorm_normalized (v : Vec3 ℝ) (h : vnorm v ≠ 0) :
    vnorm (normalized v) = 1 := by
  have hS : 0 ≤ v.x ^ 2 + v.y ^ 2 + v.z ^ 2 := by positivity
  set n := vnorm v with hn
  have h2 : n ^ 2 = v.x ^ 2 + v.y ^ 2 + v.z ^ 2 := Real.sq_sqrt hS
  unfold normalized
  rw [if_neg h]
  show Real.sqrt ((v.x / n) ^ 2 + (v.y / n) ^ 2 + (v.z / n) ^ 2) = 1
  rw [show (v.x / n) ^ 2 + (v.y / n) ^ 2 + (v.z / n) ^ 2
      = (v.x ^ 2 + v.y ^ 2 + v.z ^ 2) / n ^ 2 from by ring]
  rw [← h2, div_self (pow_ne_zero 2 h)]
  exact Real.sqrt_one

/-- A non-zero held-key axis pair has positive squared length. -/
theorem axes_sq_pos (x z : ℤ) (h : ¬(x = 0 ∧ z = 0)) :
    0 < (x : ℝ) ^ 2 + (z : ℝ) ^ 2 := by
  have hxz : x ≠ 0 ∨ z ≠ 0 := by tauto
  rcases hxz with h1 | h1
  · have h2 : ((x : ℝ)) ≠ 0 := Int.cast_ne_zero.mpr h1
    have h3 : 0 < (x : ℝ) ^ 2 := lt_of_le_of_ne (sq_nonneg _) (Ne.symm (pow_ne_zero 2 h2))
    nlinarith [sq_nonneg ((z : ℝ))]
  · have h2 : ((z : ℝ)) ≠ 0 := Int.cast_ne_zero.mpr h1
    have h3 : 0 < (z : ℝ) ^ 2 := lt_of_le_of_ne (sq_nonneg _) (Ne.symm (pow_ne_zero 2 h2))
    nlinarith [sq_nonneg ((x : ℝ))]

/-- C6 (counterexample): realtimeclockhdrv0.py's `input_move_dir` — one of
the claim's two cited implementations — does not return (0, 0, 1) for
forward = 1, right = 0, yaw = 0: its non-zero path calls the non-existent
`Vec3.rotated` and raises instead of returning any vector. -/
theorem C6_rtc_raises :
    inputMoveDirRTC 0 1 0 ≠ some ⟨0, 0, 1⟩ ∧ inputMoveDirRTC 0 1 0 = none := by
  have h : inputMoveDirRTC 0 1 0 = none := by
    unfold inputMoveDirRTC normalized vnorm
    norm_num
  refine ⟨?_, h⟩
  rw [h]
  exact fun hh => Option.noConfusion hh

/-- C6 (amended): in castlehdrv0.py, the hackersm64 variants and v0.x.py
the movement-direction function returns the zero vector exactly when both
held-key axes are zero, and otherwise the unit-length normalization of
the intent rotated by the camera yaw (degrees converted to radians), with
forward = 1, right = 0, yaw = 0 yielding exactly (0, 0, 1); the distinct
realtimeclockhdrv0.py implementation returns the zero vector for zero
axes but, for every non-zero axis pair, raises on its `Vec3.rotated`
call instead of returning the claimed vector. -/
theorem C6_move_dir (x z : ℤ) (yaw : ℝ)
    (hx : x = -1 ∨ x = 0 ∨ x = 1) (hz : z = -1 ∨ z = 0 ∨ z = 1) :
    ((x = 0 ∧ z = 0) → inputMoveDir x z yaw = ⟨0, 0, 0⟩) ∧
    (¬(x = 0 ∧ z = 0) →
      inputMoveDir x z yaw =
        normalized ⟨(x : ℝ) * Real.cos (radians yaw) + (z : ℝ) * Real.sin (radians yaw), 0,
                    -(x : ℝ) * Real.sin (radians yaw) + (z : ℝ) * Real.cos (radians yaw)⟩ ∧
      vnorm (inputMoveDir x z yaw) = 1) ∧
    inputMoveDir 0 1 0 = ⟨0, 0, 1⟩ ∧
    ((x = 0 ∧ z = 0) → inputMoveDirRTC x z yaw = some ⟨0, 0, 0⟩) ∧
    (¬(x = 0 ∧ z = 0) → inputMoveDirRTC x z yaw = none) := by
  refine ⟨?_, ?_, ?_, ?_, ?_⟩
  · intro h
    unfold inputMoveDir
    rw [if_pos h]
  · intro h
    have hrw : inputMoveDir x z yaw =
        normalized ⟨(x : ℝ) * Real.cos (radians yaw) + (z : ℝ) * Real.sin (radians yaw), 0,
                    -(x : ℝ) * Real.sin (radians yaw) + (z : ℝ) * Real.cos (radians yaw)⟩ := by
      unfold inputMoveDir
      rw [if_neg h]
    refine ⟨hrw, ?_⟩
    rw [hrw]
    apply vnorm_normalized
    have hcs : Real.sin (radians yaw) ^ 2 + Real.cos (radians yaw) ^ 2 = 1 :=
      Real.sin_sq_add_cos_sq _
    have hpos : 0 < (x : ℝ) ^ 2 + (z : ℝ) ^ 2 := by
      have hxz : x ≠ 0 ∨ z ≠ 0 := by tauto
      rcases hxz with h1 | h1
      · have h2 : ((x : ℝ)) ≠ 0 := Int.cast_ne_zero.mpr h1
        have h3 : 0 < (x : ℝ) ^ 2 := lt_of_le_of_ne (sq_nonneg _) (Ne.symm (pow_ne_zero 2 h2))
        nlinarith [sq_nonneg ((z : ℝ))]
      · have h2 : ((z : ℝ)) ≠ 0 := Int.cast_ne_zero.mpr h1
        have h3 : 0 < (z : ℝ) ^ 2 := lt_of_le_of_ne (sq_nonneg _) (Ne.symm (pow_ne_zero 2 h2))
        nlinarith [sq_nonneg ((x : ℝ))]
    unfold vnorm
    refine ne_of_gt (Real.sqrt_pos.mpr ?_)
    show 0 < ((x : ℝ) * Real.cos (radians yaw) + (z : ℝ) * Real.sin (radians yaw)) ^ 2
        + (0 : ℝ) ^ 2
        + (-(x : ℝ) * Real.sin (radians yaw) + (z : ℝ) * Real.cos (radians yaw)) ^ 2
    nlinarith [hcs, hpos, sq_nonneg ((x : ℝ) * Real.cos (radians yaw)
      + (z : ℝ) * Real.sin (radians yaw))]
  · have hr : radians 0 = 0 := by unfold radians; ring
    unfold inputMoveDir
    rw [if_neg (by simp)]
    rw [hr]
    norm_num [Real.sin_zero, Real.cos_zero]
    unfold normalized vnorm
    norm_num
  · rintro ⟨hx0, hz0⟩
    subst hx0
    subst hz0
    unfold inputMoveDirRTC normalized vnorm
    norm_num
  · intro h
    have hne : vnorm (⟨(x : ℝ), 0, (z : ℝ)⟩ : Vec3 ℝ) ≠ 0 := by
      unfold vnorm
      refine ne_of_gt (Real.sqrt_pos.mpr ?_)
      show (0 : ℝ) < (x : ℝ) ^ 2 + (0 : ℝ) ^ 2 + (z : ℝ) ^ 2
      nlinarith [axes_sq_pos x z h]
    have h1 : vnorm (normalized ⟨(x : ℝ), 0, (z : ℝ)⟩) = 1 := vnorm_normalized _ hne
    show (if 0 < vnorm (normalized ⟨(x : ℝ), 0, (z : ℝ)⟩) then none
          else some (normalized ⟨(x : ℝ), 0, (z : ℝ)⟩)) = none
    rw [h1]
    norm_num

/-- C6 (witness): a single non-zero axis with yaw 0 produces a unit
vector. -/
theorem C6_witness : vnorm (inputMoveDir 1 0 0) = 1 :=
  ((C6_move_dir 1 0 0 (Or.inr (Or.inr rfl)) (Or.inr (Or.inl rfl))).2.1 (by decide)).2

end SM64
